import Mathlib

/-!
Shallow embedding of the request-execution core of a range replica
(`pkg/storage/replica_send.go`): batch dispatch, the concurrency retry loop,
the four conflict handlers, the admin executor and batch validation.

External collaborators (executor functions, intent resolver, recovery
manager, transaction wait queue, merge watcher, context cancellation) are
modelled as explicit oracle inputs: each loop iteration consumes one record
of oracle outcomes, so the loop is a structural recursion over the list of
iteration records. Side effects that the claims observe (cleanup-handle
invocations, wait-queue enqueues, response-filter invocations) are returned
as explicit traces.
-/

namespace Storage

/-- hlc.Timestamp: a hybrid-logical-clock timestamp (wall time and logical tick). -/
structure Timestamp where
  wallTime : Int
  logical : Int
deriving Repr, DecidableEq

/-- The zero hlc.Timestamp, written `hlc.Timestamp{}` in the source. -/
def Timestamp.zero : Timestamp := ⟨0, 0⟩

/-- hlc.Timestamp.Less: lexicographic order on (wallTime, logical). -/
def Timestamp.Less (a b : Timestamp) : Bool :=
  if a.wallTime < b.wallTime then true
  else if a.wallTime = b.wallTime then decide (a.logical < b.logical)
  else false

/-- hlc.Timestamp.Forward: advance the receiver to the maximum of the two. -/
def Timestamp.Forward (a b : Timestamp) : Timestamp :=
  if a.Less b then b else a

/-- roachpb.TransactionStatus. -/
inductive TxnStatus where
  | PENDING
  | STAGING
  | COMMITTED
  | ABORTED
deriving Repr, DecidableEq

/-- TransactionStatus.IsFinalized: COMMITTED or ABORTED. -/
def TxnStatus.IsFinalized : TxnStatus → Bool
  | .COMMITTED => true
  | .ABORTED => true
  | _ => false

/-- enginepb.TxnMeta: the minimal metadata identifying a transaction. -/
structure TxnMeta where
  id : Nat
  priority : Int
deriving Repr, DecidableEq

/-- roachpb.Transaction: metadata plus status and the per-node observed
timestamps the transaction has recorded. -/
structure Transaction where
  meta : TxnMeta
  status : TxnStatus
  observedTimestamps : List (Nat × Timestamp)
deriving Repr, DecidableEq

/-- Transaction.GetObservedTimestamp: the timestamp this transaction recorded
for the given node, if any. -/
def Transaction.GetObservedTimestamp (txn : Transaction) (nodeID : Nat) :
    Option Timestamp :=
  (txn.observedTimestamps.find? (fun p => p.1 = nodeID)).map (fun p => p.2)

/-- Transaction.Clone: the value model has no aliasing, so a clone is the
value itself (the source clones only to avoid sharing a mutable pointer). -/
def Transaction.Clone (txn : Transaction) : Transaction := txn

/-- roachpb.PushTxnType. -/
inductive PushTxnType where
  | PUSH_TIMESTAMP
  | PUSH_ABORT
  | PUSH_TOUCH
deriving Repr, DecidableEq

/-- roachpb.PushTxnRequest: the fields the wait-queue predicate may inspect. -/
structure PushTxnRequest where
  pusheeTxn : TxnMeta
  pusherTxn : TxnMeta
  pushType : PushTxnType
  force : Bool
deriving Repr, DecidableEq

/-- The administrative request kinds enumerated by the admin executor. -/
inductive AdminKind where
  | split
  | unsplit
  | merge
  | transferLease
  | changeReplicas
  | relocateRange
  | checkConsistency
  | bulkImport
  | scatter
deriving Repr, DecidableEq

/-- One request in a batch: a PushTxn request (carried explicitly because the
push handler inspects it), a generic read, a generic write, or an
administrative request of a given kind. -/
inductive Request where
  | pushTxn (req : PushTxnRequest)
  | read
  | write
  | admin (k : AdminKind)
deriving Repr, DecidableEq

/-- Whether the request kind carries the isWrite flag (PushTxn is flagged as a
write because it mutates the pushee's transaction record). -/
def Request.isWriteFlag : Request → Bool
  | .pushTxn _ => true
  | .write => true
  | _ => false

/-- Whether the request kind carries the isAdmin flag. -/
def Request.isAdminFlag : Request → Bool
  | .admin _ => true
  | _ => false

/-- roachpb.ReadConsistencyType. -/
inductive ReadConsistencyType where
  | CONSISTENT
  | READ_UNCOMMITTED
  | INCONSISTENT
deriving Repr, DecidableEq

/-- roachpb.BatchRequest: header fields (timestamp, optional transaction,
read consistency, identities) plus the ordered request list. -/
structure BatchRequest where
  timestamp : Timestamp
  txn : Option Transaction
  readConsistency : ReadConsistencyType
  replicaNodeID : Nat
  gatewayNodeID : Nat
  returnRangeInfo : Bool
  requests : List Request
deriving Repr, DecidableEq

/-- Modelled from the spec: a batch is read-only when it is non-empty and no
operation is a write or an administrative operation. -/
def BatchRequest.IsReadOnly (ba : BatchRequest) : Bool :=
  !ba.requests.isEmpty && ba.requests.all (fun r => !r.isWriteFlag && !r.isAdminFlag)

/-- Modelled from the spec: a batch is a write when at least one operation is
a write operation. -/
def BatchRequest.IsWrite (ba : BatchRequest) : Bool :=
  ba.requests.any Request.isWriteFlag

/-- Modelled from the spec: a batch is administrative when it contains an
administrative operation. -/
def BatchRequest.IsAdmin (ba : BatchRequest) : Bool :=
  ba.requests.any Request.isAdminFlag

/-- Modelled from the spec: a batch is a single-PushTxn batch when it consists
of exactly one request and that request is a PushTxn request. -/
def BatchRequest.IsSinglePushTxnRequest (ba : BatchRequest) : Bool :=
  match ba.requests with
  | [Request.pushTxn _] => true
  | _ => false

/-- roachpb.WriteIntentError: the conflicting intents. -/
structure WriteIntentError where
  intents : List TxnMeta
deriving Repr, DecidableEq

/-- roachpb.TransactionPushError: carries the pushee transaction. -/
structure TransactionPushError where
  pusheeTxn : Transaction
deriving Repr, DecidableEq

/-- roachpb.IndeterminateCommitError: carries the staging transaction whose
commit outcome is locally unknown. -/
structure IndeterminateCommitError where
  stagingTxn : Transaction
deriving Repr, DecidableEq

/-- roachpb.MergeInProgressError: no payload relevant here. -/
structure MergeInProgressError where
  tag : Unit
deriving Repr, DecidableEq

/-- The typed error details the dispatch switch can observe: the four conflict
kinds, plus other typed details (ambiguous result, node unavailable, an
arbitrary other typed detail) and the generic internal-error detail that
stands for an error with no typed payload. -/
inductive ErrorDetail where
  | writeIntent (t : WriteIntentError)
  | txnPush (t : TransactionPushError)
  | indeterminateCommit (t : IndeterminateCommitError)
  | mergeInProgress (t : MergeInProgressError)
  | ambiguousResult
  | nodeUnavailable
  | otherDetail (name : String)
  | internalError
deriving Repr, DecidableEq

/-- A plain Go error: either a typed roachpb detail, a context-cancellation
cause, a wrapped error (errors.Wrap), or a plain message. -/
inductive GoError where
  | roach (d : ErrorDetail)
  | ctxCanceled
  | ctxDeadlineExceeded
  | wrap (inner : GoError) (msg : String)
  | errorMsg (msg : String)
deriving Repr, DecidableEq

/-- roachpb.Error: an error with an optional request index (ErrPosition). -/
structure PError where
  err : GoError
  index : Option Nat
deriving Repr, DecidableEq

/-- roachpb.NewError: wrap a Go error; a typed detail is preserved, and no
index is attached. -/
def PError.newError (e : GoError) : PError := ⟨e, none⟩

/-- roachpb.NewErrorf: an error from a plain message. -/
def PError.newErrorf (msg : String) : PError := ⟨.errorMsg msg, none⟩

/-- Modelled from the spec: the dispatch switch is a closed tagged union over
the four conflict kinds plus a catch-all; GetDetail yields the typed detail
when one is attached and otherwise a generic internal-error detail, so only a
nil error reaches the success case of the switch. -/
def PError.getDetail (e : PError) : ErrorDetail :=
  match e.err with
  | .roach d => d
  | _ => .internalError

/-- roachpb.BatchResponse: one reply per request plus an optional transaction
snapshot; only the transaction snapshot is observed by this slice. -/
structure BatchResponse where
  txn : Option Transaction
deriving Repr, DecidableEq

/-- The testing knobs consulted by this slice of the code. -/
structure TestingKnobs where
  dontPushOnWriteIntentError : Bool
  dontRetryPushTxnFailures : Bool
  dontRecoverIndeterminateCommits : Bool
deriving Repr, DecidableEq

/-- checkBatchRequest (replica_send.go): the batch must have an assigned
timestamp, inconsistent reads are not allowed within a transaction, and
non-consistent mode is only available to read-only batches. Returns the error
or none. -/
def checkBatchRequest (ba : BatchRequest) (isReadOnly : Bool) : Option GoError :=
  if ba.timestamp = Timestamp.zero then
    some (.errorMsg "Replica.checkBatchRequest: batch does not have timestamp assigned")
  else
    let consistent : Bool := ba.readConsistency = ReadConsistencyType.CONSISTENT
    if isReadOnly then
      if !consistent && ba.txn.isSome then
        some (.errorMsg "cannot allow inconsistent reads within a transaction")
      else
        none
    else if !consistent then
      some (.errorMsg "mode is only available to reads")
    else
      none

/-- intentresolver.CleanupFunc: modelled as an opaque handle identifier; the
calls made on a handle are recorded in traces. -/
abbrev Cleanup := Nat

/-- One invocation of a cleanup handle, with the two arguments the source
passes: an optional new WriteIntentError and an optional transaction meta. -/
structure CleanupCall where
  handle : Cleanup
  newWIErr : Option WriteIntentError
  txnMeta : Option TxnMeta
deriving Repr, DecidableEq

/-- The arguments handleWriteIntentError hands to
intentResolver.ProcessWriteIntentError: the chosen push type, the pushed
header's (possibly forwarded) timestamp, and the offending request looked up
at the error's index. -/
structure ResolverCall where
  pushType : PushTxnType
  headerTimestamp : Timestamp
  args : Option Request
deriving Repr, DecidableEq

/-- Oracle for one invocation of the intent resolver: the cleanup handle and
error that ProcessWriteIntentError returns. -/
structure WIEnv where
  resolverCleanup : Option Cleanup
  resolverErr : Option PError
deriving Repr, DecidableEq

/-- Outcome of handleWriteIntentError: either the log.Fatalf branch (missing
observed timestamp), or a normal return carrying the resolver call made (if
any), the returned cleanup handle, the residual error, and the invocations
performed on the previous cleanup handle. -/
inductive WIOutcome where
  | fatal
  | ok (resolver : Option ResolverCall) (cleanup : Option Cleanup)
      (residual : Option PError) (prevCalls : List CleanupCall)
deriving Repr, DecidableEq

/-- handleWriteIntentError (replica_send.go): if pushing is disabled by the
testing knob, return the error unchanged. Otherwise choose the push type
(abort-push for writes, timestamp-push for reads), forward the push header's
timestamp to the transaction's observed timestamp for this node (log.Fatalf
if a transactional batch has none recorded), finalize any previous cleanup
handle with the new conflict, and delegate to the intent resolver: an
ambiguous-result error is absorbed (nil residual), any other resolver error
is returned with the original error's index, and success yields a nil
residual with the new handle retained. -/
def handleWriteIntentError (knobs : TestingKnobs) (env : WIEnv)
    (ba : BatchRequest) (pErr : PError) (t : WriteIntentError)
    (cleanup : Option Cleanup) : WIOutcome :=
  if knobs.dontPushOnWriteIntentError then
    .ok none cleanup (some pErr) []
  else
    let pushType : PushTxnType :=
      if ba.IsWrite then .PUSH_ABORT else .PUSH_TIMESTAMP
    let index := pErr.index
    let args : Option Request := index.bind (fun i => ba.requests.get? i)
    -- Compute the push header: possibly forward the timestamp to the observed
    -- timestamp for this node, cloning the transaction before handing it off.
    let hTimestamp? : Option Timestamp :=
      match ba.txn with
      | none => some ba.timestamp
      | some txn =>
        match txn.GetObservedTimestamp ba.replicaNodeID with
        | none => none
        | some obsTS => some (ba.timestamp.Forward obsTS)
    match hTimestamp? with
    | none => .fatal
    | some hTimestamp =>
      let prevCalls : List CleanupCall :=
        match cleanup with
        | some c => [⟨c, some t, none⟩]
        | none => []
      let rc : ResolverCall := ⟨pushType, hTimestamp, args⟩
      match env.resolverErr with
      | none => .ok (some rc) env.resolverCleanup none prevCalls
      | some pe =>
        if pe.getDetail = ErrorDetail.ambiguousResult then
          .ok (some rc) env.resolverCleanup none prevCalls
        else
          .ok (some rc) env.resolverCleanup (some { pe with index := index }) prevCalls

/-- handleTransactionPushError (replica_send.go): retry by enqueueing the
pushee on the transaction wait queue unless retrying is disabled by the
testing knob or the batch is a single PushTxn request that the wait-queue
predicate says must be pushed immediately; in the latter cases return the
error unchanged. Returns the residual error and the list of enqueued
transactions. The predicate txnwait.ShouldPushImmediately is external to this
slice and is passed in as a pure function over the push request's fields. -/
def handleTransactionPushError (knobs : TestingKnobs)
    (shouldPushImmediately : PushTxnRequest → Bool)
    (ba : BatchRequest) (pErr : PError) (t : TransactionPushError) :
    Option PError × List Transaction :=
  let dontRetry := knobs.dontRetryPushTxnFailures
  let dontRetry :=
    if !dontRetry && ba.IsSinglePushTxnRequest then
      match ba.requests with
      | [Request.pushTxn pushReq] => shouldPushImmediately pushReq
      | _ => dontRetry
    else dontRetry
  if dontRetry then
    (some pErr, [])
  else
    (none, [t.pusheeTxn])

/-- handleIndeterminateCommitError (replica_send.go): if recovery is disabled
by the testing knob, return the error unchanged. Otherwise invoke the
recovery manager (its result is the oracle `recoveryErr`): an
ambiguous-result error is absorbed (nil residual), any other recovery error
is wrapped and returned with the original error's index, and success yields a
nil residual. -/
def handleIndeterminateCommitError (knobs : TestingKnobs)
    (recoveryErr : Option GoError) (pErr : PError)
    (_t : IndeterminateCommitError) : Option PError :=
  if knobs.dontRecoverIndeterminateCommits then
    some pErr
  else
    match recoveryErr with
    | none => none
    | some e =>
      if e = GoError.roach ErrorDetail.ambiguousResult then
        none
      else
        some { PError.newError e with index := pErr.index }

/-- The outcome of the select over (merge-complete channel, context done,
stopper quiescence) in handleMergeInProgressError; which arm fires is a
concurrency oracle. The ctxDone arm carries the context's error cause. -/
inductive MergeWaitOutcome where
  | mergeComplete
  | ctxDone (cause : GoError)
  | shouldQuiesce
deriving Repr, DecidableEq

/-- handleMergeInProgressError (replica_send.go): if the merge-complete
channel is nil the merge already finished, so retry immediately (nil
residual). Otherwise block: channel closed yields a nil residual (retry),
context cancellation yields a wrapped cancellation error, and stopper
quiescence yields a node-unavailable error. -/
def handleMergeInProgressError (mergeCompleteChPresent : Bool)
    (wait : MergeWaitOutcome) (_ba : BatchRequest) (_pErr : PError)
    (_t : MergeInProgressError) : Option PError :=
  if !mergeCompleteChPresent then
    none
  else
    match wait with
    | .mergeComplete => none
    | .ctxDone cause => some (PError.newError (.wrap cause "aborted during merge"))
    | .shouldQuiesce => some (PError.newError (.roach .nodeUnavailable))

/-- The oracle outcomes one iteration of the retry loop can consume: the
context check at the top of the loop, the transaction-wait-queue check, latch
acquisition, the executor invocation, and the environments of the handlers
that may run on a conflict in this iteration. -/
structure IterInput where
  ctxErr : Option GoError
  pusheeBr : Option BatchResponse
  pusheeErr : Option PError
  latchErr : Option GoError
  fnBr : Option BatchResponse
  fnErr : Option PError
  wiEnv : WIEnv
  icRecoveryErr : Option GoError
  mergeCompleteChPresent : Bool
  mergeWait : MergeWaitOutcome
deriving Repr, DecidableEq

/-- How the retry loop ends: a return (with the response, the error, and the
cleanup handle held at the moment of return), the log.Fatalf branch of the
write-intent handler, or divergence (the modelled iteration list was
exhausted without the loop returning). -/
inductive LoopOutcome where
  | done (br : Option BatchResponse) (pErr : Option PError) (cleanupAtExit : Option Cleanup)
  | fatal
  | diverged
deriving Repr, DecidableEq

/-- A run of the retry loop: its outcome plus the traces of cleanup-handle
invocations made inside the write-intent handler and of wait-queue enqueues
made by the push handler. -/
structure LoopRun where
  outcome : LoopOutcome
  midCalls : List CleanupCall
  enqueues : List Transaction
deriving Repr, DecidableEq

/-- The for-loop of executeBatchWithConcurrencyRetries, one recursive call
per iteration: check the context, maybe wait for a pushee, acquire latches,
invoke the executor, and dispatch on the returned error's detail — success
returns the response, each of the four conflict kinds runs its handler and
retries exactly when the handler's residual error is nil, and any other
error returns immediately. -/
def execLoop (knobs : TestingKnobs)
    (shouldPushImmediately : PushTxnRequest → Bool) (ba : BatchRequest) :
    List IterInput → Option Cleanup → List CleanupCall → List Transaction → LoopRun
  | [], _cleanup, calls, enqs => ⟨.diverged, calls, enqs⟩
  | inp :: rest, cleanup, calls, enqs =>
    -- Exit loop if context has been canceled or timed out.
    match inp.ctxErr with
    | some e =>
      ⟨.done none (some (PError.newError (.wrap e "aborted during Replica.Send"))) cleanup,
        calls, enqs⟩
    | none =>
    -- maybeWaitForPushee: if it yields a response or error, return directly.
    if inp.pusheeBr.isSome || inp.pusheeErr.isSome then
      ⟨.done inp.pusheeBr inp.pusheeErr cleanup, calls, enqs⟩
    else
    -- beginCmds: latch acquisition failure aborts immediately.
    match inp.latchErr with
    | some e => ⟨.done none (some (PError.newError e)) cleanup, calls, enqs⟩
    | none =>
    -- Invoke the executor and switch on the returned error's detail.
    match inp.fnErr with
    | none =>
      -- Success.
      ⟨.done inp.fnBr none cleanup, calls, enqs⟩
    | some e =>
      match e.getDetail with
      | .writeIntent t =>
        match handleWriteIntentError knobs inp.wiEnv ba e t cleanup with
        | .fatal => ⟨.fatal, calls, enqs⟩
        | .ok _ cleanup' residual prevCalls =>
          match residual with
          | some pe => ⟨.done none (some pe) cleanup', calls ++ prevCalls, enqs⟩
          | none =>
            execLoop knobs shouldPushImmediately ba rest cleanup' (calls ++ prevCalls) enqs
      | .txnPush t =>
        match handleTransactionPushError knobs shouldPushImmediately ba e t with
        | (some pe, newEnqs) => ⟨.done none (some pe) cleanup, calls, enqs ++ newEnqs⟩
        | (none, newEnqs) =>
          execLoop knobs shouldPushImmediately ba rest cleanup calls (enqs ++ newEnqs)
      | .indeterminateCommit t =>
        match handleIndeterminateCommitError knobs inp.icRecoveryErr e t with
        | some pe => ⟨.done none (some pe) cleanup, calls, enqs⟩
        | none => execLoop knobs shouldPushImmediately ba rest cleanup calls enqs
      | .mergeInProgress t =>
        match handleMergeInProgressError inp.mergeCompleteChPresent inp.mergeWait ba e t with
        | some pe => ⟨.done none (some pe) cleanup, calls, enqs⟩
        | none => execLoop knobs shouldPushImmediately ba rest cleanup calls enqs
      | _ =>
        -- Propagate any other error immediately.
        ⟨.done none (some e) cleanup, calls, enqs⟩

/-- What the deferred finalizer of the retry loop does on exit: nothing when
no cleanup handle exists, one invocation with the recorded arguments, or a
nil dereference (the source reads br.Txn.Status while holding only the
guarantees that pErr is nil and ba.Txn is non-nil). -/
inductive FinalizeResult where
  | noHandle
  | call (newWIErr : Option WriteIntentError) (txnMeta : Option TxnMeta)
  | nilPanic
deriving Repr, DecidableEq

/-- The body of the deferred finalizer once a handle exists: pass the
response transaction's meta when the request succeeded, was transactional,
ended in a non-finalized transaction status and was not read-only; otherwise
pass nil/nil. The source reads br.Txn.Status after checking only that pErr
is nil and ba.Txn is non-nil, so a missing response transaction is a nil
dereference. -/
def finalizeArgs (ba : BatchRequest) (br : Option BatchResponse)
    (pErr : Option PError) : FinalizeResult :=
  if pErr.isNone && ba.txn.isSome then
    match br with
    | none => .nilPanic
    | some b =>
      match b.txn with
      | none => .nilPanic
      | some btxn =>
        if !btxn.status.IsFinalized && !ba.IsReadOnly then
          .call none (some btxn.meta)
        else
          .call none none
  else
    .call none none

/-- The deferred cleanup finalizer of executeBatchWithConcurrencyRetries:
nothing happens when no handle exists, otherwise the handle is invoked once
with the arguments computed by finalizeArgs. -/
def finalizeCleanup (ba : BatchRequest) (br : Option BatchResponse)
    (pErr : Option PError) (cleanup : Option Cleanup) : FinalizeResult :=
  match cleanup with
  | none => .noHandle
  | some _ => finalizeArgs ba br pErr

/-- How executeBatchWithConcurrencyRetries ends: a return together with the
finalizer's action, the fatal branch, or divergence (no finalizer runs in
the latter two cases: log.Fatalf exits the process without running defers,
and a non-returning loop never reaches them). -/
inductive ExecOutcome where
  | done (br : Option BatchResponse) (pErr : Option PError) (finalize : FinalizeResult)
  | fatal
  | diverged
deriving Repr, DecidableEq

/-- A run of executeBatchWithConcurrencyRetries: its outcome plus the traces
of mid-loop cleanup invocations and wait-queue enqueues. -/
structure ExecResult where
  outcome : ExecOutcome
  midCalls : List CleanupCall
  enqueues : List Transaction
deriving Repr, DecidableEq

/-- executeBatchWithConcurrencyRetries (replica_send.go): collect the batch's
spans once (a collection error returns immediately, before the deferred
finalizer is installed), then run the retry loop; on every return from the
loop the deferred finalizer fires on the cleanup handle held at exit. -/
def executeBatchWithConcurrencyRetries (knobs : TestingKnobs)
    (shouldPushImmediately : PushTxnRequest → Bool) (ba : BatchRequest)
    (collectSpansErr : Option GoError) (iters : List IterInput) : ExecResult :=
  match collectSpansErr with
  | some e => ⟨.done none (some (PError.newError e)) .noHandle, [], []⟩
  | none =>
    let run := execLoop knobs shouldPushImmediately ba iters none [] []
    match run.outcome with
    | .done br pErr cl =>
      ⟨.done br pErr (finalizeCleanup ba br pErr cl), run.midCalls, run.enqueues⟩
    | .fatal => ⟨.fatal, run.midCalls, run.enqueues⟩
    | .diverged => ⟨.diverged, run.midCalls, run.enqueues⟩

/-- roachpb.Response (admin commands): only the optional transaction in the
response header is observed by this slice. -/
structure Response where
  txn : Option Transaction
deriving Repr, DecidableEq

/-- Oracles for executeAdminBatch: the lease check's error, the
checkExecutionCanProceed error, and the result of the dispatched admin
command (its response and error). -/
structure AdminEnv where
  leaseErr : Option PError
  checkExecErr : Option GoError
  cmdResp : Response
  cmdErr : Option PError
deriving Repr, DecidableEq

/-- A run of executeAdminBatch: the response, the error, and whether the
lease check was reached and whether a command was dispatched. -/
structure AdminResult where
  br : Option BatchResponse
  pErr : Option PError
  leaseChecked : Bool
  executed : Bool
deriving Repr, DecidableEq

/-- executeAdminBatch (replica_send.go): reject any batch that does not have
exactly one request before anything else; then require the range lease
(redirectOnOrAcquireLease), verify execution can proceed, and dispatch on the
single request's admin kind — a non-admin request falls to the switch's
default, a client-visible "unrecognized admin command" error. On success the
response is wrapped in a batch response carrying the response header's
transaction. -/
def executeAdminBatch (env : AdminEnv) (ba : BatchRequest) : AdminResult :=
  if ba.requests.length ≠ 1 then
    ⟨none, some (PError.newErrorf "only single-element admin batches allowed"),
      false, false⟩
  else
    -- Admin commands always require the range lease.
    match env.leaseErr with
    | some pe => ⟨none, some pe, true, false⟩
    | none =>
    match env.checkExecErr with
    | some e => ⟨none, some (PError.newError e), true, false⟩
    | none =>
    match ba.requests.head? with
    | some (Request.admin _) =>
      match env.cmdErr with
      | some pe => ⟨none, some pe, true, true⟩
      | none => ⟨some ⟨env.cmdResp.txn⟩, none, true, true⟩
    | _ =>
      ⟨none, some (PError.newErrorf "unrecognized admin command"), true, false⟩

/-- Oracles for sendWithRangeID: the backpressure check, the in-flight-write
stripping step, the optional request and response testing filters, the retry
loop's oracles for the read-only and read-write paths, and the admin
executor's oracles for the admin path. -/
structure SendEnv where
  backpressureErr : Option GoError
  stripResult : Except GoError BatchRequest
  requestFilter : Option (BatchRequest → Option PError)
  responseFilter : Option (BatchRequest → Option BatchResponse → Option PError)
  knobsRest : TestingKnobs
  shouldPushImmediately : PushTxnRequest → Bool
  collectSpansErr : Option GoError
  iters : List IterInput
  adminEnv : AdminEnv

/-- How sendWithRangeID ends: a return, a log.Fatalf (empty or unclassifiable
batch, or the write-intent handler's fatal branch), or divergence of the
retry loop. -/
inductive SendOutcome where
  | ret (br : Option BatchResponse) (pErr : Option PError)
  | fatal
  | diverged
deriving Repr, DecidableEq

/-- A run of sendWithRangeID: the outcome, whether an execution branch was
dispatched, the branch's pre-filter result when one returned, and the trace
of response-filter invocations (each with the arguments it was given). -/
structure SendResult where
  outcome : SendOutcome
  dispatched : Bool
  branchResult : Option (Option BatchResponse × Option PError)
  respFilterCalls : List (BatchRequest × Option BatchResponse)

/-- The tail of sendWithRangeID shared by all branches: on a branch error,
log and return it; otherwise invoke the response filter (when installed),
which may rewrite the error. -/
def afterBranch (env : SendEnv) (ba : BatchRequest) (br : Option BatchResponse)
    (pErr : Option PError) : SendResult :=
  match pErr with
  | some pe => ⟨.ret br (some pe), true, some (br, pErr), []⟩
  | none =>
    match env.responseFilter with
    | some filter => ⟨.ret br (filter ba br), true, some (br, none), [(ba, br)]⟩
    | none => ⟨.ret br none, true, some (br, none), []⟩

/-- The dispatch branch of sendWithRangeID: route to the read-write path,
the read-only path (both through the concurrency retry loop) or the admin
path; an empty or otherwise unclassifiable batch is a log.Fatalf. -/
def dispatchBranch (env : SendEnv) (ba' : BatchRequest)
    (isReadOnly useRaft : Bool) : SendResult :=
  if useRaft then
    -- read-write path, via the concurrency retry loop.
    match executeBatchWithConcurrencyRetries env.knobsRest env.shouldPushImmediately
        ba' env.collectSpansErr env.iters with
    | ⟨.done br pErr _, _, _⟩ => afterBranch env ba' br pErr
    | ⟨.fatal, _, _⟩ => ⟨.fatal, true, none, []⟩
    | ⟨.diverged, _, _⟩ => ⟨.diverged, true, none, []⟩
  else if isReadOnly then
    -- read-only path, via the concurrency retry loop.
    match executeBatchWithConcurrencyRetries env.knobsRest env.shouldPushImmediately
        ba' env.collectSpansErr env.iters with
    | ⟨.done br pErr _, _, _⟩ => afterBranch env ba' br pErr
    | ⟨.fatal, _, _⟩ => ⟨.fatal, true, none, []⟩
    | ⟨.diverged, _, _⟩ => ⟨.diverged, true, none, []⟩
  else if ba'.IsAdmin then
    -- admin path.
    let res := executeAdminBatch env.adminEnv ba'
    afterBranch env ba' res.br res.pErr
  else
    -- empty batch, or a batch the dispatcher cannot classify: log.Fatalf.
    ⟨.fatal, false, none, []⟩

/-- sendWithRangeID (replica_send.go): validate the batch, apply
backpressure, strip in-flight writes, apply the request filter, then
dispatch to the read-write, read-only or admin path; after the branch, an
error is returned as-is and on a nil error the response filter (when
installed) is given the final response and may rewrite the error. -/
def sendWithRangeID (env : SendEnv) (ba : BatchRequest) : SendResult :=
  let isReadOnly := ba.IsReadOnly
  let useRaft := !isReadOnly && ba.IsWrite
  match checkBatchRequest ba isReadOnly with
  | some e => ⟨.ret none (some (PError.newError e)), false, none, []⟩
  | none =>
  match env.backpressureErr with
  | some e => ⟨.ret none (some (PError.newError e)), false, none, []⟩
  | none =>
  match env.stripResult with
  | .error e => ⟨.ret none (some (PError.newError e)), false, none, []⟩
  | .ok ba' =>
  match env.requestFilter with
  | some filter =>
    match filter ba' with
    | some pe => ⟨.ret none (some pe), false, none, []⟩
    | none => dispatchBranch env ba' isReadOnly useRaft
  | none => dispatchBranch env ba' isReadOnly useRaft

/-! Concrete sample values used by witnesses. -/

/-- A sample transaction meta. -/
def sampleMeta : TxnMeta := ⟨1, 0⟩

/-- A sample pending transaction with an observed timestamp for node 1. -/
def sampleTxn : Transaction := ⟨sampleMeta, .PENDING, [(1, ⟨5, 0⟩)]⟩

/-- A sample pending transaction with no observed timestamps. -/
def sampleTxnNoObs : Transaction := ⟨sampleMeta, .PENDING, []⟩

/-- A sample write-intent error. -/
def sampleWIE : WriteIntentError := ⟨[sampleMeta]⟩

/-- A sample roachpb.Error carrying a write-intent detail at request index 0. -/
def samplePErrWI : PError := ⟨.roach (.writeIntent sampleWIE), some 0⟩

/-- A sample transaction-push error. -/
def sampleTPE : TransactionPushError := ⟨sampleTxn⟩

/-- A sample roachpb.Error carrying a transaction-push detail. -/
def samplePErrTP : PError := ⟨.roach (.txnPush sampleTPE), some 0⟩

/-- A sample indeterminate-commit error. -/
def sampleICE : IndeterminateCommitError := ⟨sampleTxn⟩

/-- A sample roachpb.Error carrying an indeterminate-commit detail. -/
def samplePErrIC : PError := ⟨.roach (.indeterminateCommit sampleICE), some 2⟩

/-- Testing knobs with every override disabled. -/
def sampleKnobs : TestingKnobs := ⟨false, false, false⟩

/-- A sample write batch: one write request, assigned timestamp, no txn. -/
def sampleBaWrite : BatchRequest :=
  ⟨⟨1, 0⟩, none, .CONSISTENT, 1, 2, false, [.write]⟩

/-- A sample transactional write batch whose transaction has an observed
timestamp for the replica's node (node 1). -/
def sampleBaTxnWrite : BatchRequest :=
  ⟨⟨1, 0⟩, some sampleTxn, .CONSISTENT, 1, 2, false, [.write]⟩

/-- A sample single-PushTxn batch. -/
def samplePushReq : PushTxnRequest := ⟨sampleMeta, ⟨2, 0⟩, .PUSH_ABORT, false⟩

/-- A sample batch consisting of exactly one PushTxn request. -/
def sampleBaPush : BatchRequest :=
  ⟨⟨1, 0⟩, none, .CONSISTENT, 1, 2, false, [.pushTxn samplePushReq]⟩

/-- A push-immediately predicate that always answers true. -/
def spiTrue : PushTxnRequest → Bool := fun _ => true

/-- A push-immediately predicate that always answers false. -/
def spiFalse : PushTxnRequest → Bool := fun _ => false

/-! Claim theorems. -/

/-- Claim C9: batch validation returns an error exactly when the batch's
timestamp is unassigned (zero), or the batch is read-only with a
non-consistent read-consistency level inside a transaction, or the batch is
not read-only and its read-consistency level is not consistent; otherwise
validation succeeds. (The embedding is a total function, so no panic is
possible.) -/
theorem C9_checkBatchRequest_error_iff (ba : BatchRequest) (isReadOnly : Bool) :
    (checkBatchRequest ba isReadOnly).isSome = true ↔
      (ba.timestamp = Timestamp.zero ∨
       (isReadOnly = true ∧ ba.readConsistency ≠ ReadConsistencyType.CONSISTENT ∧
         ba.txn.isSome = true) ∨
       (isReadOnly = false ∧ ba.readConsistency ≠ ReadConsistencyType.CONSISTENT)) := by
  unfold checkBatchRequest
  by_cases hts : ba.timestamp = Timestamp.zero
  · simp [hts]
  · by_cases hc : ba.readConsistency = ReadConsistencyType.CONSISTENT
    · cases isReadOnly <;> simp [hts, hc]
    · cases isReadOnly <;> cases hx : ba.txn <;> simp [hts, hc, hx]

/-- Claim C8: an administrative batch containing more than one operation is
rejected with a client-visible error before the lease is checked or acquired
and before anything executes. -/
theorem C8_admin_multi_rejected_before_lease (env : AdminEnv) (ba : BatchRequest)
    (h : 1 < ba.requests.length) :
    executeAdminBatch env ba =
      ⟨none, some (PError.newErrorf "only single-element admin batches allowed"),
        false, false⟩ := by
  have hne : ba.requests.length ≠ 1 := by omega
  unfold executeAdminBatch
  simp [hne]

/-- A two-operation admin batch used to witness claim C8. -/
def sampleBaAdmin2 : BatchRequest :=
  ⟨⟨1, 0⟩, none, .CONSISTENT, 1, 2, false, [.admin .split, .admin .merge]⟩

/-- A sample admin environment. -/
def sampleAdminEnv : AdminEnv := ⟨none, none, ⟨none⟩, none⟩

/-- Witness for claim C8 at a concrete two-operation admin batch. -/
theorem C8_admin_multi_rejected_before_lease_witness :
    1 < sampleBaAdmin2.requests.length ∧
    executeAdminBatch sampleAdminEnv sampleBaAdmin2 =
      ⟨none, some (PError.newErrorf "only single-element admin batches allowed"),
        false, false⟩ :=
  ⟨by decide, C8_admin_multi_rejected_before_lease sampleAdminEnv sampleBaAdmin2 (by decide)⟩

/-- Claim C6: the merge-in-progress handler returns nil (retry) without
blocking when the merge-completion channel is nil; otherwise it returns nil
when the channel closes, a wrapped cancellation error when the caller's
context is cancelled, and a node-unavailable error on process-shutdown
quiescence — and, the wait outcomes being exhaustive, never anything else. -/
theorem C6_mergeInProgress_outcomes :
    (∀ w ba pErr t, handleMergeInProgressError false w ba pErr t = none)
  ∧ (∀ ba pErr t,
      handleMergeInProgressError true .mergeComplete ba pErr t = none)
  ∧ (∀ cause ba pErr t,
      handleMergeInProgressError true (.ctxDone cause) ba pErr t =
        some (PError.newError (.wrap cause "aborted during merge")))
  ∧ (∀ ba pErr t,
      handleMergeInProgressError true .shouldQuiesce ba pErr t =
        some (PError.newError (.roach .nodeUnavailable))) := by
  refine ⟨?_, ?_, ?_, ?_⟩ <;> intros <;> rfl

/-- Claim C5: the transaction-push handler returns the conflict error
unchanged (with no enqueue) exactly when retrying is disabled by
configuration or the batch is a single PushTxn request whose push the pure
predicate classifies as push-immediately; otherwise it enqueues the pushee
transaction on the wait queue and returns nil. -/
theorem C5_txnPush_retry_rule (knobs : TestingKnobs)
    (spi : PushTxnRequest → Bool) (ba : BatchRequest) (pErr : PError)
    (t : TransactionPushError) :
    (knobs.dontRetryPushTxnFailures = true →
       handleTransactionPushError knobs spi ba pErr t = (some pErr, []))
  ∧ (∀ req, knobs.dontRetryPushTxnFailures = false →
       ba.requests = [Request.pushTxn req] → spi req = true →
       handleTransactionPushError knobs spi ba pErr t = (some pErr, []))
  ∧ (∀ req, knobs.dontRetryPushTxnFailures = false →
       ba.requests = [Request.pushTxn req] → spi req = false →
       handleTransactionPushError knobs spi ba pErr t = (none, [t.pusheeTxn]))
  ∧ (knobs.dontRetryPushTxnFailures = false →
       ba.IsSinglePushTxnRequest = false →
       handleTransactionPushError knobs spi ba pErr t = (none, [t.pusheeTxn])) := by
  refine ⟨?_, ?_, ?_, ?_⟩
  · intro h
    unfold handleTransactionPushError
    simp [h]
  · intro req h hreq hspi
    unfold handleTransactionPushError
    simp [h, hreq, hspi, BatchRequest.IsSinglePushTxnRequest]
  · intro req h hreq hspi
    unfold handleTransactionPushError
    simp [h, hreq, hspi, BatchRequest.IsSinglePushTxnRequest]
  · intro h hsingle
    unfold handleTransactionPushError
    simp [h, hsingle]

/-- Witness for claim C5: with retries configured off, the handler returns
the conflict unchanged and enqueues nothing. -/
theorem C5_txnPush_retry_rule_witness :
    TestingKnobs.dontRetryPushTxnFailures ⟨false, true, false⟩ = true ∧
    handleTransactionPushError ⟨false, true, false⟩ spiFalse sampleBaPush
      samplePErrTP sampleTPE = (some samplePErrTP, []) :=
  ⟨rfl, (C5_txnPush_retry_rule ⟨false, true, false⟩ spiFalse sampleBaPush
      samplePErrTP sampleTPE).1 rfl⟩

/-- Claim C3: when intent-resolver push or commit recovery returns an
ambiguous-result error, the respective handler returns a nil residual error
(so the loop retries); the ambiguity is never propagated out of either
handler. -/
theorem C3_ambiguous_result_absorbed
    (knobs knobs2 : TestingKnobs) (env : WIEnv) (ba : BatchRequest)
    (pErr pErr2 : PError) (t : WriteIntentError) (t2 : IndeterminateCommitError)
    (cl : Option Cleanup) (pe : PError)
    (hk : knobs.dontPushOnWriteIntentError = false)
    (hres : env.resolverErr = some pe)
    (hamb : pe.err = GoError.roach ErrorDetail.ambiguousResult)
    (hobs : ∀ txn, ba.txn = some txn →
       (txn.GetObservedTimestamp ba.replicaNodeID).isSome = true)
    (hk2 : knobs2.dontRecoverIndeterminateCommits = false) :
    (∃ rc prev, handleWriteIntentError knobs env ba pErr t cl =
       .ok rc env.resolverCleanup none prev)
  ∧ handleIndeterminateCommitError knobs2
      (some (GoError.roach ErrorDetail.ambiguousResult)) pErr2 t2 = none := by
  constructor
  · unfold handleWriteIntentError
    rcases hba : ba.txn with _ | txn
    · simp [hk, hba, hres, PError.getDetail, hamb]
    · have hsome := hobs txn hba
      rcases hGet : txn.GetObservedTimestamp ba.replicaNodeID with _ | ts
      · rw [hGet] at hsome
        simp at hsome
      · simp [hk, hba, hGet, hres, PError.getDetail, hamb]
  · unfold handleIndeterminateCommitError
    simp [hk2]

/-- Witness for claim C3 at a concrete resolver/recovery run that reports an
ambiguous result. -/
theorem C3_ambiguous_result_absorbed_witness :
    sampleKnobs.dontPushOnWriteIntentError = false ∧
    WIEnv.resolverErr ⟨some 7, some ⟨.roach .ambiguousResult, none⟩⟩ =
      some ⟨.roach .ambiguousResult, none⟩ ∧
    (PError.mk (.roach .ambiguousResult) none).err =
      GoError.roach ErrorDetail.ambiguousResult ∧
    (∀ txn, sampleBaTxnWrite.txn = some txn →
       (txn.GetObservedTimestamp sampleBaTxnWrite.replicaNodeID).isSome = true) ∧
    sampleKnobs.dontRecoverIndeterminateCommits = false ∧
    ((∃ rc prev, handleWriteIntentError sampleKnobs
        ⟨some 7, some ⟨.roach .ambiguousResult, none⟩⟩ sampleBaTxnWrite
        samplePErrWI sampleWIE none =
        .ok rc (WIEnv.resolverCleanup ⟨some 7, some ⟨.roach .ambiguousResult, none⟩⟩)
          none prev)
     ∧ handleIndeterminateCommitError sampleKnobs
         (some (GoError.roach ErrorDetail.ambiguousResult)) samplePErrIC
         sampleICE = none) :=
  ⟨rfl, rfl, rfl,
   by
     intro txn h
     simp only [sampleBaTxnWrite] at h
     rw [(Option.some.inj h).symm]
     decide,
   rfl,
   C3_ambiguous_result_absorbed sampleKnobs sampleKnobs
     ⟨some 7, some ⟨.roach .ambiguousResult, none⟩⟩ sampleBaTxnWrite
     samplePErrWI samplePErrIC sampleWIE sampleICE none
     ⟨.roach .ambiguousResult, none⟩ rfl rfl rfl
     (by
       intro txn h
       simp only [sampleBaTxnWrite] at h
       rw [(Option.some.inj h).symm]
       decide)
     rfl⟩

/-- Claim C4: every non-absorbed error returned by the write-intent handler
or the indeterminate-commit handler carries the original conflicting error's
request index. -/
theorem C4_handler_error_preserves_index :
    (∀ knobs env ba pErr t cl rc cl2 pe prev,
       handleWriteIntentError knobs env ba pErr t cl =
         WIOutcome.ok rc cl2 (some pe) prev →
       pe.index = pErr.index)
  ∧ (∀ knobs recErr pErr t pe,
       handleIndeterminateCommitError knobs recErr pErr t = some pe →
       pe.index = pErr.index) := by
  constructor
  · intro knobs env ba pErr t cl rc cl2 pe prev h
    unfold handleWriteIntentError at h
    by_cases hk : knobs.dontPushOnWriteIntentError
    · simp [hk] at h
      rw [← h.2.2.1]
    · simp only [hk, Bool.false_eq_true, if_false] at h
      split at h
      · exact absurd h (by simp)
      · split at h
        · simp at h
        · split at h
          · simp at h
          · simp only [WIOutcome.ok.injEq, Option.some.injEq] at h
            rw [← h.2.2.1]
  · intro knobs recErr pErr t pe h
    unfold handleIndeterminateCommitError at h
    by_cases hk : knobs.dontRecoverIndeterminateCommits
    · simp [hk] at h
      rw [← h]
    · simp only [hk, Bool.false_eq_true, if_false] at h
      split at h
      · simp at h
      · split at h
        · simp at h
        · simp only [Option.some.injEq] at h
          rw [← h]

/-- Witness for claim C4: a concrete run of the write-intent handler that
returns a non-absorbed error, whose index equals the original error's. -/
theorem C4_handler_error_preserves_index_witness :
    handleWriteIntentError ⟨true, false, false⟩ ⟨none, none⟩ sampleBaWrite
      samplePErrWI sampleWIE none =
      WIOutcome.ok none none (some samplePErrWI) [] ∧
    samplePErrWI.index = samplePErrWI.index :=
  ⟨by decide,
   C4_handler_error_preserves_index.1 ⟨true, false, false⟩ ⟨none, none⟩
     sampleBaWrite samplePErrWI sampleWIE none none none samplePErrWI []
     (by decide)⟩

/-- A transactional batch whose transaction has no observed timestamp for the
replica's node, used to witness claim C10. -/
def sampleBaTxnNoObs : BatchRequest :=
  ⟨⟨1, 0⟩, some sampleTxnNoObs, .CONSISTENT, 1, 2, false, [.write]⟩

/-- Claim C10: with pushing enabled, a transactional batch whose transaction
has no recorded observed timestamp for the replica's node drives the
write-intent handler into its fatal (log.Fatalf) branch; whenever such an
observed timestamp is recorded, the fatal branch is unreachable. -/
theorem C10_missing_observed_timestamp_fatal :
    (∀ knobs env ba pErr t cl txn,
       knobs.dontPushOnWriteIntentError = false →
       ba.txn = some txn →
       txn.GetObservedTimestamp ba.replicaNodeID = none →
       handleWriteIntentError knobs env ba pErr t cl = WIOutcome.fatal)
  ∧ (∀ knobs env ba pErr t cl txn ts,
       ba.txn = some txn →
       txn.GetObservedTimestamp ba.replicaNodeID = some ts →
       handleWriteIntentError knobs env ba pErr t cl ≠ WIOutcome.fatal) := by
  constructor
  · intro knobs env ba pErr t cl txn hk hba hobs
    unfold handleWriteIntentError
    simp [hk, hba, hobs]
  · intro knobs env ba pErr t cl txn ts hba hobs
    unfold handleWriteIntentError
    by_cases hk : knobs.dontPushOnWriteIntentError
    · simp [hk]
    · rcases henv : env.resolverErr with _ | pe
      · simp [hk, hba, hobs, henv]
      · by_cases hd : pe.getDetail = ErrorDetail.ambiguousResult
        · simp [hk, hba, hobs, henv, hd]
        · simp [hk, hba, hobs, henv, hd]

/-- Witness for claim C10: a concrete transactional batch with no observed
timestamp for node 1 reaches the fatal branch. -/
theorem C10_missing_observed_timestamp_fatal_witness :
    sampleKnobs.dontPushOnWriteIntentError = false ∧
    sampleBaTxnNoObs.txn = some sampleTxnNoObs ∧
    sampleTxnNoObs.GetObservedTimestamp sampleBaTxnNoObs.replicaNodeID = none ∧
    handleWriteIntentError sampleKnobs ⟨none, none⟩ sampleBaTxnNoObs
      samplePErrWI sampleWIE none = WIOutcome.fatal :=
  ⟨rfl, rfl, by decide,
   C10_missing_observed_timestamp_fatal.1 sampleKnobs ⟨none, none⟩
     sampleBaTxnNoObs samplePErrWI sampleWIE none sampleTxnNoObs rfl rfl
     (by decide)⟩

/-- Every terminating run of executeBatchWithConcurrencyRetries produces its
finalizer action by applying the deferred finalizer to the cleanup handle
held at exit. -/
theorem executeBatch_finalize_shape (knobs : TestingKnobs)
    (spi : PushTxnRequest → Bool) (ba : BatchRequest) (ce : Option GoError)
    (iters : List IterInput) (br : Option BatchResponse) (pErr : Option PError)
    (fin : FinalizeResult)
    (h : (executeBatchWithConcurrencyRetries knobs spi ba ce iters).outcome =
       ExecOutcome.done br pErr fin) :
    ∃ cl, fin = finalizeCleanup ba br pErr cl := by
  unfold executeBatchWithConcurrencyRetries at h
  cases ce with
  | some e =>
    simp only [ExecOutcome.done.injEq] at h
    refine ⟨none, ?_⟩
    rw [← h.2.2]
    rfl
  | none =>
    simp only at h
    cases hrun : (execLoop knobs spi ba iters none [] []).outcome with
    | done br' pErr' cl =>
      rw [hrun] at h
      simp only [ExecOutcome.done.injEq] at h
      exact ⟨cl, by rw [← h.1, ← h.2.1, ← h.2.2]⟩
    | fatal =>
      rw [hrun] at h
      simp at h
    | diverged =>
      rw [hrun] at h
      simp at h

/-- If the finalizer body produced a call, its first argument (the new
write-intent conflict) is always nil. -/
theorem finalizeArgs_first_arg_nil (ba : BatchRequest) (br : Option BatchResponse)
    (pErr : Option PError) (a : Option WriteIntentError) (m : Option TxnMeta)
    (h : finalizeArgs ba br pErr = FinalizeResult.call a m) : a = none := by
  unfold finalizeArgs at h
  split at h
  · split at h
    · simp at h
    · split at h
      · simp at h
      · split at h <;> exact ((FinalizeResult.call.inj h).1).symm
  · exact ((FinalizeResult.call.inj h).1).symm

/-- On a successful transactional non-panicking exit, the finalizer passes
the response transaction's meta exactly when that transaction is not
finalized and the batch was not read-only. -/
theorem finalizeArgs_success_rule (ba : BatchRequest) (b : BatchResponse)
    (btxn : Transaction) (a : Option WriteIntentError) (m : Option TxnMeta)
    (hba : ba.txn.isSome = true) (hbtxn : b.txn = some btxn)
    (h : finalizeArgs ba (some b) none = FinalizeResult.call a m) :
    m = if btxn.status.IsFinalized = false ∧ ba.IsReadOnly = false
        then some btxn.meta else none := by
  unfold finalizeArgs at h
  simp only [Option.isNone_none, Bool.true_and, hba, hbtxn] at h
  by_cases hf : btxn.status.IsFinalized <;> by_cases hro : ba.IsReadOnly <;>
    simp only [hf, hro, Bool.not_true, Bool.not_false, Bool.false_and,
      Bool.and_false, Bool.and_true, Bool.true_and, Bool.and_self,
      if_true, if_false, Bool.false_eq_true, FinalizeResult.call.injEq] at h <;>
    simp [hf, hro, ← h.2]

/-- On an erroring or non-transactional exit, the finalizer passes nil/nil. -/
theorem finalizeArgs_failure_rule (ba : BatchRequest) (br : Option BatchResponse)
    (pErr : Option PError) (a : Option WriteIntentError) (m : Option TxnMeta)
    (hor : pErr.isSome = true ∨ ba.txn = none)
    (h : finalizeArgs ba br pErr = FinalizeResult.call a m) : m = none := by
  unfold finalizeArgs at h
  rcases hor with hpe | hba
  · obtain ⟨pe, rfl⟩ := Option.isSome_iff_exists.mp hpe
    simp only [Option.isNone_some, Bool.false_and, Bool.false_eq_true, if_false,
      FinalizeResult.call.injEq] at h
    exact h.2.symm
  · rw [hba] at h
    simp only [Option.isSome_none, Bool.and_false, Bool.false_eq_true, if_false,
      FinalizeResult.call.injEq] at h
    exact h.2.symm

/-- Claim C2: on every terminating exit of the retry loop, the finalizer
passes the cleanup handle (when one exists) no new conflict, and passes the
response transaction's metadata exactly when the call succeeded, the batch
carried a transaction, the response transaction's status is not finalized,
and the batch was not read-only; otherwise it passes nil/nil. -/
theorem C2_cleanup_finalize_rule (knobs : TestingKnobs)
    (spi : PushTxnRequest → Bool) (ba : BatchRequest) (ce : Option GoError)
    (iters : List IterInput) (br : Option BatchResponse) (pErr : Option PError)
    (fin : FinalizeResult)
    (h : (executeBatchWithConcurrencyRetries knobs spi ba ce iters).outcome =
       ExecOutcome.done br pErr fin) :
    (∀ a m, fin = FinalizeResult.call a m → a = none)
  ∧ (∀ b btxn a m, pErr = none → br = some b → b.txn = some btxn →
       ba.txn.isSome = true → fin = FinalizeResult.call a m →
       m = if btxn.status.IsFinalized = false ∧ ba.IsReadOnly = false
           then some btxn.meta else none)
  ∧ (∀ a m, pErr.isSome = true ∨ ba.txn = none →
       fin = FinalizeResult.call a m → m = none) := by
  obtain ⟨cl, rfl⟩ :=
    executeBatch_finalize_shape knobs spi ba ce iters br pErr fin h
  cases cl with
  | none =>
    refine ⟨?_, ?_, ?_⟩ <;> intros <;> simp_all [finalizeCleanup]
  | some c =>
    simp only [finalizeCleanup]
    refine ⟨?_, ?_, ?_⟩
    · intro a m hcall
      exact finalizeArgs_first_arg_nil ba br pErr a m hcall
    · intro b btxn a m hpe hbr hbtxn hba hcall
      subst hpe hbr
      exact finalizeArgs_success_rule ba b btxn a m hba hbtxn hcall
    · intro a m hor hcall
      exact finalizeArgs_failure_rule ba br pErr a m hor hcall

/-- First loop iteration of the witness run for claim C2: the executor hits a
write-intent conflict, the resolver succeeds and hands back handle 7. -/
def c2Iter1 : IterInput :=
  ⟨none, none, none, none, none, some samplePErrWI, ⟨some 7, none⟩, none, true,
    .mergeComplete⟩

/-- Second loop iteration of the witness run for claim C2: the executor
succeeds with a response carrying the still-pending transaction. -/
def c2Iter2 : IterInput :=
  ⟨none, none, none, none, some ⟨some sampleTxn⟩, none, ⟨none, none⟩, none,
    false, .mergeComplete⟩

/-- Witness for claim C2: a run that retries once through the write-intent
handler and then succeeds finalizes handle 7 with the live transaction's
metadata. -/
theorem C2_cleanup_finalize_rule_witness :
    (executeBatchWithConcurrencyRetries sampleKnobs spiFalse sampleBaTxnWrite
      none [c2Iter1, c2Iter2]).outcome =
      ExecOutcome.done (some ⟨some sampleTxn⟩) none
        (FinalizeResult.call none (some sampleMeta)) ∧
    ((∀ a m, FinalizeResult.call none (some sampleMeta) =
        FinalizeResult.call a m → a = none)
     ∧ (∀ b btxn a m, (none : Option PError) = none →
          (some (⟨some sampleTxn⟩ : BatchResponse)) = some b →
          b.txn = some btxn → sampleBaTxnWrite.txn.isSome = true →
          FinalizeResult.call none (some sampleMeta) = FinalizeResult.call a m →
          m = if btxn.status.IsFinalized = false ∧ sampleBaTxnWrite.IsReadOnly = false
              then some btxn.meta else none)
     ∧ (∀ a m, (none : Option PError).isSome = true ∨ sampleBaTxnWrite.txn = none →
          FinalizeResult.call none (some sampleMeta) = FinalizeResult.call a m →
          m = none)) :=
  ⟨by decide,
   C2_cleanup_finalize_rule sampleKnobs spiFalse sampleBaTxnWrite none
     [c2Iter1, c2Iter2] (some ⟨some sampleTxn⟩) none
     (FinalizeResult.call none (some sampleMeta)) (by decide)⟩

/-- Claim C1: in a loop iteration that reaches the executor, a nil error
returns the batch response as success; each of the four conflict kinds is
dispatched to its handler and the loop retries exactly when the handler's
residual error is nil (otherwise it terminates with the residual, or crashes
on the write-intent handler's fatal branch); and every other error kind is
returned immediately without retrying. -/
theorem C1_conflict_dispatch (knobs : TestingKnobs)
    (spi : PushTxnRequest → Bool) (ba : BatchRequest) (inp : IterInput)
    (rest : List IterInput) (cl : Option Cleanup) (calls : List CleanupCall)
    (enqs : List Transaction)
    (hctx : inp.ctxErr = none) (hbr : inp.pusheeBr = none)
    (hpe : inp.pusheeErr = none) (hla : inp.latchErr = none) :
    (inp.fnErr = none →
       execLoop knobs spi ba (inp :: rest) cl calls enqs =
         ⟨.done inp.fnBr none cl, calls, enqs⟩)
  ∧ (∀ e t, inp.fnErr = some e → e.getDetail = ErrorDetail.writeIntent t →
       (∀ rc cl2 prev,
          handleWriteIntentError knobs inp.wiEnv ba e t cl =
            WIOutcome.ok rc cl2 none prev →
          execLoop knobs spi ba (inp :: rest) cl calls enqs =
            execLoop knobs spi ba rest cl2 (calls ++ prev) enqs)
     ∧ (∀ rc cl2 pe prev,
          handleWriteIntentError knobs inp.wiEnv ba e t cl =
            WIOutcome.ok rc cl2 (some pe) prev →
          execLoop knobs spi ba (inp :: rest) cl calls enqs =
            ⟨.done none (some pe) cl2, calls ++ prev, enqs⟩)
     ∧ (handleWriteIntentError knobs inp.wiEnv ba e t cl = WIOutcome.fatal →
          execLoop knobs spi ba (inp :: rest) cl calls enqs =
            ⟨.fatal, calls, enqs⟩))
  ∧ (∀ e t, inp.fnErr = some e → e.getDetail = ErrorDetail.txnPush t →
       (∀ enq2, handleTransactionPushError knobs spi ba e t = (none, enq2) →
          execLoop knobs spi ba (inp :: rest) cl calls enqs =
            execLoop knobs spi ba rest cl calls (enqs ++ enq2))
     ∧ (∀ pe enq2,
          handleTransactionPushError knobs spi ba e t = (some pe, enq2) →
          execLoop knobs spi ba (inp :: rest) cl calls enqs =
            ⟨.done none (some pe) cl, calls, enqs ++ enq2⟩))
  ∧ (∀ e t, inp.fnErr = some e → e.getDetail = ErrorDetail.indeterminateCommit t →
       (handleIndeterminateCommitError knobs inp.icRecoveryErr e t = none →
          execLoop knobs spi ba (inp :: rest) cl calls enqs =
            execLoop knobs spi ba rest cl calls enqs)
     ∧ (∀ pe,
          handleIndeterminateCommitError knobs inp.icRecoveryErr e t = some pe →
          execLoop knobs spi ba (inp :: rest) cl calls enqs =
            ⟨.done none (some pe) cl, calls, enqs⟩))
  ∧ (∀ e t, inp.fnErr = some e → e.getDetail = ErrorDetail.mergeInProgress t →
       (handleMergeInProgressError inp.mergeCompleteChPresent inp.mergeWait
            ba e t = none →
          execLoop knobs spi ba (inp :: rest) cl calls enqs =
            execLoop knobs spi ba rest cl calls enqs)
     ∧ (∀ pe,
          handleMergeInProgressError inp.mergeCompleteChPresent inp.mergeWait
            ba e t = some pe →
          execLoop knobs spi ba (inp :: rest) cl calls enqs =
            ⟨.done none (some pe) cl, calls, enqs⟩))
  ∧ (∀ e, inp.fnErr = some e →
       (∀ t, e.getDetail ≠ ErrorDetail.writeIntent t) →
       (∀ t, e.getDetail ≠ ErrorDetail.txnPush t) →
       (∀ t, e.getDetail ≠ ErrorDetail.indeterminateCommit t) →
       (∀ t, e.getDetail ≠ ErrorDetail.mergeInProgress t) →
       execLoop knobs spi ba (inp :: rest) cl calls enqs =
         ⟨.done none (some e) cl, calls, enqs⟩) := by
  refine ⟨?_, ?_, ?_, ?_, ?_, ?_⟩
  · intro hfe
    simp [execLoop, hctx, hbr, hpe, hla, hfe]
  · intro e t hfe hd
    refine ⟨?_, ?_, ?_⟩
    · intro rc cl2 prev hw
      simp [execLoop, hctx, hbr, hpe, hla, hfe, hd, hw]
    · intro rc cl2 pe prev hw
      simp [execLoop, hctx, hbr, hpe, hla, hfe, hd, hw]
    · intro hw
      simp [execLoop, hctx, hbr, hpe, hla, hfe, hd, hw]
  · intro e t hfe hd
    refine ⟨?_, ?_⟩
    · intro enq2 hw
      simp [execLoop, hctx, hbr, hpe, hla, hfe, hd, hw]
    · intro pe enq2 hw
      simp [execLoop, hctx, hbr, hpe, hla, hfe, hd, hw]
  · intro e t hfe hd
    refine ⟨?_, ?_⟩
    · intro hw
      simp [execLoop, hctx, hbr, hpe, hla, hfe, hd, hw]
    · intro pe hw
      simp [execLoop, hctx, hbr, hpe, hla, hfe, hd, hw]
  · intro e t hfe hd
    refine ⟨?_, ?_⟩
    · intro hw
      simp [execLoop, hctx, hbr, hpe, hla, hfe, hd, hw]
    · intro pe hw
      simp [execLoop, hctx, hbr, hpe, hla, hfe, hd, hw]
  · intro e hfe h1 h2 h3 h4
    cases hD : e.getDetail with
    | writeIntent t => exact absurd hD (h1 t)
    | txnPush t => exact absurd hD (h2 t)
    | indeterminateCommit t => exact absurd hD (h3 t)
    | mergeInProgress t => exact absurd hD (h4 t)
    | ambiguousResult => simp [execLoop, hctx, hbr, hpe, hla, hfe, hD]
    | nodeUnavailable => simp [execLoop, hctx, hbr, hpe, hla, hfe, hD]
    | otherDetail s => simp [execLoop, hctx, hbr, hpe, hla, hfe, hD]
    | internalError => simp [execLoop, hctx, hbr, hpe, hla, hfe, hD]

/-- A conflict-free successful iteration, used to witness claim C1. -/
def c1Iter : IterInput :=
  ⟨none, none, none, none, some ⟨none⟩, none, ⟨none, none⟩, none, false,
    .mergeComplete⟩

/-- Witness for claim C1: a conflict-free iteration returns the executor's
response as success. -/
theorem C1_conflict_dispatch_witness :
    c1Iter.ctxErr = none ∧ c1Iter.pusheeBr = none ∧ c1Iter.pusheeErr = none ∧
    c1Iter.latchErr = none ∧ c1Iter.fnErr = none ∧
    execLoop sampleKnobs spiFalse sampleBaWrite [c1Iter] none [] [] =
      ⟨.done c1Iter.fnBr none none, [], []⟩ :=
  ⟨rfl, rfl, rfl, rfl, rfl,
   (C1_conflict_dispatch sampleKnobs spiFalse sampleBaWrite c1Iter [] none [] []
      rfl rfl rfl rfl).1 rfl⟩

/-- The post-branch tail always records the branch's pre-filter result. -/
theorem afterBranch_branchResult (env : SendEnv) (ba : BatchRequest)
    (br : Option BatchResponse) (pErr : Option PError) :
    (afterBranch env ba br pErr).branchResult = some (br, pErr) := by
  unfold afterBranch
  cases pErr with
  | some pe => rfl
  | none => cases env.responseFilter <;> rfl

/-- On a branch error the response filter is not invoked. -/
theorem afterBranch_error_skips_filter (env : SendEnv) (ba : BatchRequest)
    (br : Option BatchResponse) (pe : PError) :
    (afterBranch env ba br (some pe)).respFilterCalls = [] := rfl

/-- With no filter installed there is no filter invocation. -/
theorem afterBranch_no_filter (env : SendEnv) (ba : BatchRequest)
    (br : Option BatchResponse) (h : env.responseFilter = none) :
    (afterBranch env ba br none).respFilterCalls = [] := by
  unfold afterBranch
  rw [h]

/-- On branch success with a filter installed, the filter is invoked on the
final response and its output becomes the returned error. -/
theorem afterBranch_success_filter (env : SendEnv) (ba : BatchRequest)
    (br : Option BatchResponse) (f : BatchRequest → Option BatchResponse → Option PError)
    (h : env.responseFilter = some f) :
    afterBranch env ba br none =
      ⟨SendOutcome.ret br (f ba br), true, some (br, none), [(ba, br)]⟩ := by
  unfold afterBranch
  rw [h]

/-- Each dispatch branch either ends in a fatal or diverging run (no branch
result recorded) or hands its result to the post-branch tail. -/
theorem dispatchBranch_cases (env : SendEnv) (ba' : BatchRequest) (ro ur : Bool) :
    (dispatchBranch env ba' ro ur).branchResult = none ∨
    ∃ br0 pErr0, dispatchBranch env ba' ro ur = afterBranch env ba' br0 pErr0 := by
  unfold dispatchBranch
  cases ur with
  | true =>
    simp only [if_true]
    rcases hx : executeBatchWithConcurrencyRetries env.knobsRest
        env.shouldPushImmediately ba' env.collectSpansErr env.iters with ⟨outc, mc, eq⟩
    cases outc with
    | done br0 pErr0 fin =>
      right
      exact ⟨br0, pErr0, rfl⟩
    | fatal =>
      left
      rfl
    | diverged =>
      left
      rfl
  | false =>
    simp only [Bool.false_eq_true, if_false]
    cases ro with
    | true =>
      simp only [if_true]
      rcases hx : executeBatchWithConcurrencyRetries env.knobsRest
          env.shouldPushImmediately ba' env.collectSpansErr env.iters with ⟨outc, mc, eq⟩
      cases outc with
      | done br0 pErr0 fin =>
        right
        exact ⟨br0, pErr0, rfl⟩
      | fatal =>
        left
        rfl
      | diverged =>
        left
        rfl
    | false =>
      simp only [Bool.false_eq_true, if_false]
      by_cases hadm : ba'.IsAdmin
      · right
        exact ⟨(executeAdminBatch env.adminEnv ba').br,
          (executeAdminBatch env.adminEnv ba').pErr, by simp [hadm]⟩
      · left
        simp [hadm]

/-- Every run of sendWithRangeID either records no branch result (an early
return, a fatal, or a diverging loop) or is exactly the post-branch tail
applied to the stripped batch and the branch's result. -/
theorem sendWithRangeID_branch_cases (env : SendEnv) (ba : BatchRequest) :
    (sendWithRangeID env ba).branchResult = none ∨
    ∃ ba' br0 pErr0, env.stripResult = Except.ok ba' ∧
      sendWithRangeID env ba = afterBranch env ba' br0 pErr0 := by
  rcases hchk : checkBatchRequest ba ba.IsReadOnly with _ | e
  case some =>
    left
    simp [sendWithRangeID, hchk]
  case none =>
  rcases hbp : env.backpressureErr with _ | e
  case some =>
    left
    simp [sendWithRangeID, hchk, hbp]
  case none =>
  rcases hstrip : env.stripResult with e | ba'
  case error =>
    left
    simp [sendWithRangeID, hchk, hbp, hstrip]
  case ok =>
  have hdisp := dispatchBranch_cases env ba' ba.IsReadOnly (!ba.IsReadOnly && ba.IsWrite)
  rcases hqf : env.requestFilter with _ | filter
  case none =>
    rcases hdisp with hn | ⟨br0, pErr0, heq⟩
    · left
      simpa [sendWithRangeID, hchk, hbp, hstrip, hqf] using hn
    · right
      refine ⟨ba', br0, pErr0, rfl, ?_⟩
      simpa [sendWithRangeID, hchk, hbp, hstrip, hqf] using heq
  case some =>
    rcases hfa : filter ba' with _ | pe
    case none =>
      rcases hdisp with hn | ⟨br0, pErr0, heq⟩
      · left
        simpa [sendWithRangeID, hchk, hbp, hstrip, hqf, hfa] using hn
      · right
        refine ⟨ba', br0, pErr0, rfl, ?_⟩
        simpa [sendWithRangeID, hchk, hbp, hstrip, hqf, hfa] using heq
    case some =>
      left
      simp [sendWithRangeID, hchk, hbp, hstrip, hqf, hfa]

/-- A trivial response filter used in the C7 scenarios. -/
def c7RespFilter : BatchRequest → Option BatchResponse → Option PError :=
  fun _ _ => none

/-- A conflict-free successful iteration for the C7 success scenario. -/
def c7Iter : IterInput :=
  ⟨none, none, none, none, some ⟨none⟩, none, ⟨none, none⟩, none, false,
    .mergeComplete⟩

/-- An environment whose dispatched branch fails (span collection error)
while a response filter is installed. -/
def c7EnvErr : SendEnv :=
  ⟨none, .ok sampleBaWrite, none, some c7RespFilter, sampleKnobs, spiFalse,
    some (.errorMsg "span"), [], sampleAdminEnv⟩

/-- An environment whose dispatched branch succeeds in one iteration while a
response filter is installed. -/
def c7EnvOk : SendEnv :=
  ⟨none, .ok sampleBaWrite, none, some c7RespFilter, sampleKnobs, spiFalse,
    none, [c7Iter], sampleAdminEnv⟩

/-- Counterexample to claim C7 as stated: a dispatched batch whose branch
returns an error never reaches the installed response filter — the filter is
invoked on success paths only (the source guards the filter call with
pErr == nil). -/
theorem C7_response_filter_counterexample :
    (sendWithRangeID c7EnvErr sampleBaWrite).dispatched = true ∧
    c7EnvErr.responseFilter.isSome = true ∧
    (sendWithRangeID c7EnvErr sampleBaWrite).branchResult =
      some (none, some (PError.newError (.errorMsg "span"))) ∧
    (sendWithRangeID c7EnvErr sampleBaWrite).respFilterCalls = [] :=
  ⟨rfl, rfl, rfl, rfl⟩

/-- Claim C7 (amended): after a dispatched branch returns, the installed
response filter is given the final response (and may rewrite the error)
exactly when the branch returned no error; on a branch error (and when no
filter is installed) the filter is not invoked. -/
theorem C7_response_filter_on_success (env : SendEnv) (ba ba' : BatchRequest)
    (br0 : Option BatchResponse) (pErr0 : Option PError)
    (hstrip : env.stripResult = Except.ok ba')
    (hbranch : (sendWithRangeID env ba).branchResult = some (br0, pErr0)) :
    (pErr0.isSome = true → (sendWithRangeID env ba).respFilterCalls = [])
  ∧ (env.responseFilter = none → (sendWithRangeID env ba).respFilterCalls = [])
  ∧ (∀ f, pErr0 = none → env.responseFilter = some f →
       (sendWithRangeID env ba).respFilterCalls = [(ba', br0)] ∧
       (sendWithRangeID env ba).outcome = SendOutcome.ret br0 (f ba' br0)) := by
  rcases sendWithRangeID_branch_cases env ba with hnone | ⟨ba2, br1, pErr1, hstrip2, heq⟩
  · rw [hnone] at hbranch
    simp at hbranch
  · have hba2 : ba2 = ba' := by
      rw [hstrip] at hstrip2
      exact (Except.ok.inj hstrip2.symm)
    rw [hba2] at heq
    rw [heq, afterBranch_branchResult] at hbranch
    obtain ⟨hbr1, hpe1⟩ := Prod.mk.inj (Option.some.inj hbranch)
    rw [hbr1, hpe1] at heq
    refine ⟨?_, ?_, ?_⟩
    · intro hps
      obtain ⟨pe, hpe⟩ := Option.isSome_iff_exists.mp hps
      subst hpe
      rw [heq]
      exact afterBranch_error_skips_filter env ba' _ pe
    · intro hnf
      cases pErr0 with
      | some pe =>
        rw [heq]
        exact afterBranch_error_skips_filter env ba' _ pe
      | none =>
        rw [heq]
        exact afterBranch_no_filter env ba' _ hnf
    · intro f hpe hf
      subst hpe
      rw [heq, afterBranch_success_filter env ba' _ f hf]
      exact ⟨rfl, rfl⟩

/-- Witness for the amended claim C7: a concrete successful dispatch invokes
the installed filter on the final response. -/
theorem C7_response_filter_on_success_witness :
    c7EnvOk.stripResult = Except.ok sampleBaWrite ∧
    (sendWithRangeID c7EnvOk sampleBaWrite).branchResult =
      some (some ⟨none⟩, none) ∧
    ((Option.isSome (none : Option PError) = true →
        (sendWithRangeID c7EnvOk sampleBaWrite).respFilterCalls = [])
     ∧ (c7EnvOk.responseFilter = none →
        (sendWithRangeID c7EnvOk sampleBaWrite).respFilterCalls = [])
     ∧ (∀ f, (none : Option PError) = none → c7EnvOk.responseFilter = some f →
        (sendWithRangeID c7EnvOk sampleBaWrite).respFilterCalls =
          [(sampleBaWrite, some ⟨none⟩)] ∧
        (sendWithRangeID c7EnvOk sampleBaWrite).outcome =
          SendOutcome.ret (some ⟨none⟩) (f sampleBaWrite (some ⟨none⟩)))) :=
  ⟨rfl, rfl,
   C7_response_filter_on_success c7EnvOk sampleBaWrite sampleBaWrite
     (some ⟨none⟩) none rfl rfl⟩

end Storage
